import Mathlib

/-!
Shallow embedding of the BPM detection service (src/main.py) over exact
rationals, together with theorems settling the specification claims about the
tempo-estimation pipeline: the [60, 200] band filter, median reconciliation,
agreement-based confidence, single-pass octave correction, 2-decimal rounding,
and the HTTP-level error taxonomy of the detect_bpm endpoint.
-/

/-- Banker's rounding of a rational to an integer, as Python's built-in round:
round half to even, otherwise to the nearest integer. -/
def roundHalfEven (q : ℚ) : ℤ :=
  if q - (⌊q⌋ : ℚ) < 1/2 then ⌊q⌋
  else if 1/2 < q - (⌊q⌋ : ℚ) then ⌊q⌋ + 1
  else if ⌊q⌋ % 2 = 0 then ⌊q⌋ else ⌊q⌋ + 1

/-- Python round(x, 2): rounding to 2 decimal places (main.py lines 164-171). -/
def round2 (q : ℚ) : ℚ := (roundHalfEven (q * 100) : ℚ) / 100

/-- The candidate list sorted ascending (the sort underlying np.median). -/
def sortedOf (l : List ℚ) : List ℚ := List.insertionSort (· ≤ ·) l

/-- np.median: the middle element of the sorted list, or the mean of the two
middle elements when the length is even. -/
def npMedian (l : List ℚ) : ℚ :=
  if (sortedOf l).length % 2 = 1 then (sortedOf l).getD ((sortedOf l).length / 2) 0
  else if (sortedOf l).length = 0 then 0
  else ((sortedOf l).getD ((sortedOf l).length / 2 - 1) 0
        + (sortedOf l).getD ((sortedOf l).length / 2) 0) / 2

/-- np.mean: the arithmetic mean. -/
def listMean (l : List ℚ) : ℚ := l.sum / (l.length : ℚ)

/-- np.var: the population variance (ddof = 0), as used at main.py line 150. -/
def popVariance (l : List ℚ) : ℚ :=
  ((l.map fun x => (x - listMean l) ^ 2).sum) / (l.length : ℚ)

/-- The physically plausible tempo band filter, keeping the values t with
60 <= t <= 200 (main.py lines 131-132 for Strategy C, line 142 for the
reconciler). -/
def bandFilter (l : List ℚ) : List ℚ :=
  l.filter fun t => decide (60 ≤ t ∧ t ≤ 200)

/-- Strategy C aggregation (main.py lines 124-138): band-filter the tempo
distribution; if values survive, take their median and their dispersion,
otherwise fall back to the Strategy A candidate with dispersion zero. The
second component carries the population variance of the surviving values; the
code stores np.std, its square root, a value that is only logged and feeds
nothing downstream (it is zero exactly when the variance is zero). -/
def method3 (dist : List ℚ) (tempo1 : ℚ) : ℚ × ℚ :=
  if 0 < (bandFilter dist).length then
    (npMedian (bandFilter dist), popVariance (bandFilter dist))
  else (tempo1, 0)

/-- main.py lines 142-144: the qualifying candidates among the three strategy
outputs; if none qualify, fall back to the unfiltered Strategy A candidate
alone. -/
def temposOf (tempo1 tempo2 tempo3 : ℚ) : List ℚ :=
  if bandFilter [tempo1, tempo2, tempo3] = [] then [tempo1]
  else bandFilter [tempo1, tempo2, tempo3]

/-- main.py lines 149-153: agreement-based confidence when at least two
candidates qualify, fixed 0.7 otherwise. -/
def confidenceOf (tempos : List ℚ) : ℚ :=
  if 2 ≤ tempos.length then max 0 (min 1 (1 - popVariance tempos / 400))
  else 7/10

/-- main.py lines 156-159: single-pass octave correction. -/
def octaveCorrect (bpm : ℚ) : ℚ :=
  if bpm < 60 then bpm * 2 else if 200 < bpm then bpm / 2 else bpm

/-- The JSON result assembled at main.py lines 163-172. -/
structure DetectResult where
  bpm : ℚ
  filename : String
  confidence : ℚ
  sample_rate : ℕ
  duration_seconds : ℚ
  method1_bpm : ℚ
  method2_bpm : ℚ
  method3_bpm : ℚ
  deriving DecidableEq

/-- The analysis core of detect_bpm (main.py lines 96-172), given the raw
Strategy A and Strategy B candidates tempo1 and tempo2 and the Strategy C
tempo distribution, plus the decoded sample count, sample rate and file name
for the echoed metadata. -/
def detectCore (tempo1 tempo2 : ℚ) (dist : List ℚ) (nSamples sr : ℕ)
    (fname : String) : DetectResult :=
  let tempo3 := (method3 dist tempo1).1
  let tempos := temposOf tempo1 tempo2 tempo3
  let accurate_bpm := npMedian tempos
  let confidence := confidenceOf tempos
  { bpm := round2 (octaveCorrect accurate_bpm)
    filename := fname
    confidence := round2 confidence
    sample_rate := sr
    duration_seconds := round2 ((nSamples : ℚ) / (sr : ℚ))
    method1_bpm := round2 tempo1
    method2_bpm := round2 tempo2
    method3_bpm := round2 tempo3 }

/-- An uploaded file: a name and raw byte contents (main.py lines 43, 61, 75). -/
structure UploadFile where
  filename : String
  contents : List ℕ
  deriving DecidableEq

/-- The transport-level outcome of a detect_bpm request: a JSON result, an
HTTP 400 client error, or an HTTP 500 server error. -/
inductive Response where
  | ok : DetectResult → Response
  | clientError : String → Response
  | serverError : String → Response
  deriving DecidableEq

/-- The accepted container formats (main.py line 60). -/
def allowedExtensions : List String :=
  [".mp3", ".wav", ".flac", ".ogg", ".m4a", ".aiff", ".aif"]

/-- Modelled from the spec: extension extraction, main.py line 61 delegates to
os.path.splitext followed by .lower(), both outside src/. The extension is the
final dot-suffix of the file name, lowercased; empty when the name has no
dot. -/
def fileExt (name : String) : String :=
  if '.' ∈ name.toList then
    String.mk ('.' ::
      ((name.toList.reverse.takeWhile fun c => c ≠ '.').reverse.map Char.toLower))
  else ""

/-- Modelled from the spec: the onset-envelope extraction and the librosa
estimation strategies invoked at main.py lines 98-130 are not part of src/.
Per spec section 4.1 the envelope measures onset strength, so an all-zero
waveform has a degenerate (all-zero) envelope, and per section 4.2 any
estimation on a degenerate/silent envelope must surface as an estimation
failure rather than a silent wrong answer. Behavior on non-silent input is
abstracted by the parameter est, returning the Strategy A and B candidates and
the Strategy C distribution. -/
def specStrategies (est : List ℚ → ℕ → ℚ × ℚ × List ℚ) (y : List ℚ) (sr : ℕ) :
    Except String (ℚ × ℚ × List ℚ) :=
  if ∀ x ∈ y, x = 0 then
    Except.error ("degenerate onset envelope: no onsets detected")
  else Except.ok (est y sr)

/-- The detect_bpm endpoint (main.py lines 42-193). The external collaborators
are passed as functions: load is librosa.load (decoding bytes to a waveform
and sample rate), strategies is the estimation stage producing the Strategy A
and B candidates and the Strategy C distribution. Python exceptions are
Except values: an HTTPException is re-raised unchanged (line 177-178) and any
other exception becomes a 500 carrying its message (lines 179-184). -/
def detect_bpm (file : Option UploadFile)
    (load : List ℕ → Except String (List ℚ × ℕ))
    (strategies : List ℚ → ℕ → Except String (ℚ × ℚ × List ℚ)) : Response :=
  match file with
  | none => Response.clientError ("No file uploaded")
  | some f =>
    if fileExt f.filename ∉ allowedExtensions then
      Response.clientError ("Unsupported file format")
    else if f.contents.length = 0 then
      Response.clientError ("Uploaded file is empty")
    else
      match load f.contents with
      | Except.error e => Response.serverError ("Error processing audio file: " ++ e)
      | Except.ok (y, sr) =>
        if y.length = 0 then
          Response.clientError ("Audio file appears to be empty or corrupted")
        else
          match strategies y sr with
          | Except.error e => Response.serverError ("Error processing audio file: " ++ e)
          | Except.ok (t1, t2, dist) =>
            Response.ok (detectCore t1 t2 dist y.length sr f.filename)


theorem floor_le_roundHalfEven (q : ℚ) : ⌊q⌋ ≤ roundHalfEven q := by
  unfold roundHalfEven
  split_ifs <;> omega

theorem le_roundHalfEven (a : ℤ) (q : ℚ) (h : (a : ℚ) ≤ q) : a ≤ roundHalfEven q :=
  le_trans (Int.le_floor.mpr h) (floor_le_roundHalfEven q)

theorem roundHalfEven_le (b : ℤ) (q : ℚ) (h : q ≤ (b : ℚ)) : roundHalfEven q ≤ b := by
  have hfb : ⌊q⌋ ≤ b := by
    have h2 := Int.floor_le_floor h
    rwa [Int.floor_intCast] at h2
  have hfq := Int.floor_le q
  unfold roundHalfEven
  split_ifs with h1 h2 h3
  · exact hfb
  · have hlt : (⌊q⌋ : ℚ) < (b : ℚ) := by linarith
    have hlt2 : ⌊q⌋ < b := by exact_mod_cast hlt
    omega
  · exact hfb
  · have h1' : (1 : ℚ)/2 ≤ q - (⌊q⌋ : ℚ) := not_lt.mp h1
    have hlt : (⌊q⌋ : ℚ) < (b : ℚ) := by linarith
    have hlt2 : ⌊q⌋ < b := by exact_mod_cast hlt
    omega

theorem roundHalfEven_intCast (n : ℤ) : roundHalfEven ((n : ℤ) : ℚ) = n := by
  unfold roundHalfEven
  rw [Int.floor_intCast]
  norm_num

theorem round2_idempotent (x : ℚ) : round2 (round2 x) = round2 x := by
  unfold round2
  rw [div_mul_cancel₀ ((roundHalfEven (x * 100) : ℤ) : ℚ) (by norm_num : (100 : ℚ) ≠ 0),
    roundHalfEven_intCast]

theorem round2_intCast (n : ℤ) : round2 ((n : ℤ) : ℚ) = n := by
  unfold round2
  have h : ((n : ℤ) : ℚ) * 100 = ((n * 100 : ℤ) : ℚ) := by push_cast; ring
  rw [h, roundHalfEven_intCast]
  push_cast
  field_simp

theorem round2_bounds_60_200 (q : ℚ) (h1 : 60 ≤ q) (h2 : q ≤ 200) :
    60 ≤ round2 q ∧ round2 q ≤ 200 := by
  have hl : (6000 : ℤ) ≤ roundHalfEven (q * 100) := by
    apply le_roundHalfEven
    push_cast
    linarith
  have hr : roundHalfEven (q * 100) ≤ (20000 : ℤ) := by
    apply roundHalfEven_le
    push_cast
    linarith
  have hl2 : (6000 : ℚ) ≤ (roundHalfEven (q * 100) : ℚ) := by exact_mod_cast hl
  have hr2 : (roundHalfEven (q * 100) : ℚ) ≤ (20000 : ℚ) := by exact_mod_cast hr
  unfold round2
  constructor
  · linarith
  · linarith

theorem getD_mem (l : List ℚ) : ∀ i : ℕ, i < l.length → ∀ d : ℚ, l.getD i d ∈ l := by
  induction l with
  | nil =>
      intro i h d
      exact absurd h (by simp)
  | cons a t ih =>
      intro i h d
      cases i with
      | zero => simp [List.getD_cons_zero]
      | succ j =>
          rw [List.getD_cons_succ]
          exact List.mem_cons_of_mem a (ih j (by simpa using h) d)

theorem npMedian_mem_Icc (a b : ℚ) (l : List ℚ) (h0 : l ≠ [])
    (h : ∀ x ∈ l, a ≤ x ∧ x ≤ b) : a ≤ npMedian l ∧ npMedian l ≤ b := by
  have hperm : List.Perm (sortedOf l) l := List.perm_insertionSort _ l
  have hmem : ∀ x ∈ sortedOf l, a ≤ x ∧ x ≤ b := fun x hx => h x (hperm.mem_iff.mp hx)
  have hpos : 0 < (sortedOf l).length := by
    rw [hperm.length_eq]
    exact List.length_pos.mpr h0
  unfold npMedian
  by_cases hodd : (sortedOf l).length % 2 = 1
  · rw [if_pos hodd]
    exact hmem _ (getD_mem _ _ (Nat.div_lt_self hpos one_lt_two) 0)
  · rw [if_neg hodd, if_neg (Nat.pos_iff_ne_zero.mp hpos)]
    have hi2 : (sortedOf l).length / 2 < (sortedOf l).length :=
      Nat.div_lt_self hpos one_lt_two
    have hi1 : (sortedOf l).length / 2 - 1 < (sortedOf l).length :=
      lt_of_le_of_lt (Nat.sub_le _ _) hi2
    obtain ⟨ha1, hb1⟩ := hmem _ (getD_mem _ _ hi1 0)
    obtain ⟨ha2, hb2⟩ := hmem _ (getD_mem _ _ hi2 0)
    constructor
    · linarith
    · linarith

theorem npMedian_singleton (x : ℚ) : npMedian [x] = x := by
  simp [npMedian, sortedOf, List.insertionSort, List.orderedInsert]

theorem mem_bandFilter {x : ℚ} {l : List ℚ} (hx : x ∈ bandFilter l) :
    60 ≤ x ∧ x ≤ 200 :=
  of_decide_eq_true (List.mem_filter.mp hx).2

/-- Claim C1 (amended): the returned bpm lies in [60, 200] whenever at least
one of the three candidates lies in [60, 200]; on the no-qualifier fallback
path it lies in [60, 200] provided the unfiltered Strategy A candidate lies in
[30, 400], since the single octave-correction pass doubles or halves the
median only once. -/
theorem C1_band_membership_amended (t1 t2 : ℚ) (dist : List ℚ) (n sr : ℕ)
    (fn : String)
    (h : bandFilter [t1, t2, (method3 dist t1).1] ≠ [] ∨ (30 ≤ t1 ∧ t1 ≤ 400)) :
    60 ≤ (detectCore t1 t2 dist n sr fn).bpm
      ∧ (detectCore t1 t2 dist n sr fn).bpm ≤ 200 := by
  have hbpm : (detectCore t1 t2 dist n sr fn).bpm
      = round2 (octaveCorrect (npMedian (temposOf t1 t2 (method3 dist t1).1))) := rfl
  rw [hbpm]
  by_cases hq : bandFilter [t1, t2, (method3 dist t1).1] = []
  · have ht1 : 30 ≤ t1 ∧ t1 ≤ 400 := by
      rcases h with h | h
      · exact absurd hq h
      · exact h
    have hts : temposOf t1 t2 (method3 dist t1).1 = [t1] := by
      unfold temposOf
      rw [if_pos hq]
    rw [hts, npMedian_singleton]
    unfold octaveCorrect
    by_cases h60 : t1 < 60
    · rw [if_pos h60]
      exact round2_bounds_60_200 _ (by linarith [ht1.1]) (by linarith)
    · rw [if_neg h60]
      by_cases h200 : 200 < t1
      · rw [if_pos h200]
        exact round2_bounds_60_200 _ (by linarith) (by linarith [ht1.2])
      · rw [if_neg h200]
        exact round2_bounds_60_200 _ (by linarith) (by linarith)
  · have hts : temposOf t1 t2 (method3 dist t1).1
        = bandFilter [t1, t2, (method3 dist t1).1] := by
      unfold temposOf
      rw [if_neg hq]
    have hband : ∀ x ∈ temposOf t1 t2 (method3 dist t1).1, 60 ≤ x ∧ x ≤ 200 := by
      rw [hts]
      intro x hx
      exact mem_bandFilter hx
    have hne : temposOf t1 t2 (method3 dist t1).1 ≠ [] := by
      rw [hts]
      exact hq
    obtain ⟨hm1, hm2⟩ := npMedian_mem_Icc 60 200 _ hne hband
    have hoc : octaveCorrect (npMedian (temposOf t1 t2 (method3 dist t1).1))
        = npMedian (temposOf t1 t2 (method3 dist t1).1) := by
      unfold octaveCorrect
      rw [if_neg (by linarith), if_neg (by linarith)]
    rw [hoc]
    exact round2_bounds_60_200 _ hm1 hm2

theorem C1_witness :
    60 ≤ (detectCore 120 120 [] 1 1 ("a.wav")).bpm
      ∧ (detectCore 120 120 [] 1 1 ("a.wav")).bpm ≤ 200 :=
  C1_band_membership_amended 120 120 [] 1 1 ("a.wav")
    (Or.inr (by norm_num))

/-- Claim C1 counterexample: with every strategy candidate equal to 20 BPM
(possible per the spec, a TempoCandidate is merely positive), the fallback
path returns bpm 40, outside [60, 200]: the single correction pass doubles 20
to 40 only once. -/
theorem C1_counterexample :
    ¬ (60 ≤ (detectCore 20 20 [] 1 1 ("a.wav")).bpm
        ∧ (detectCore 20 20 [] 1 1 ("a.wav")).bpm ≤ 200) := by
  have hb : (detectCore 20 20 [] 1 1 ("a.wav")).bpm = 40 := by
    simp only [detectCore]
    norm_num [method3, temposOf, bandFilter, npMedian, sortedOf, List.insertionSort,
      List.orderedInsert, octaveCorrect, round2, roundHalfEven]
  rw [hb]
  norm_num

/-- Claim C2: octave correction is applied exactly once, after median
selection and before rounding: the returned bpm is the 2-decimal rounding of a
single octaveCorrect pass over the reconciled median, octaveCorrect doubles a
median below 60 and halves one above 200 and otherwise changes nothing, a
candidate-set median of 45 yields final BPM 90 and one of 220 yields 110, and
the pass is not iterated (a median of 25 becomes 50, not 100). -/
theorem C2_octave_correction_once (t1 t2 : ℚ) (dist : List ℚ) (n sr : ℕ)
    (fn : String) :
    (detectCore t1 t2 dist n sr fn).bpm
      = round2 (octaveCorrect (npMedian (temposOf t1 t2 (method3 dist t1).1)))
    ∧ (∀ m : ℚ, octaveCorrect m = if m < 60 then m * 2 else if 200 < m then m / 2 else m)
    ∧ octaveCorrect 45 = 90
    ∧ octaveCorrect 220 = 110
    ∧ octaveCorrect 25 = 50
    ∧ (detectCore 45 45 [] 1 1 ("x.wav")).bpm = 90
    ∧ (detectCore 220 220 [] 1 1 ("x.wav")).bpm = 110 := by
  refine ⟨rfl, fun m => rfl, by norm_num [octaveCorrect], by norm_num [octaveCorrect],
    by norm_num [octaveCorrect], ?_, ?_⟩
  · simp only [detectCore]
    norm_num [method3, temposOf, bandFilter, npMedian, sortedOf, List.insertionSort,
      List.orderedInsert, octaveCorrect, round2, roundHalfEven]
  · simp only [detectCore]
    norm_num [method3, temposOf, bandFilter, npMedian, sortedOf, List.insertionSort,
      List.orderedInsert, octaveCorrect, round2, roundHalfEven]

/-- Claim C3: the reconciled (pre-rounding) BPM is the median of the
candidates inside [60, 200]; when no candidate is in band the reconciler uses
the unfiltered Strategy A candidate alone; for in-band candidates
{118, 120, 160} the pre-rounding final BPM is the median 120 (also after the
octave-correction pass, which leaves it unchanged), not the mean. -/
theorem C3_median_reconciliation (t1 t2 t3 : ℚ) :
    (bandFilter [t1, t2, t3] ≠ [] →
        npMedian (temposOf t1 t2 t3) = npMedian (bandFilter [t1, t2, t3]))
    ∧ (bandFilter [t1, t2, t3] = [] → npMedian (temposOf t1 t2 t3) = t1)
    ∧ npMedian (temposOf 118 120 160) = 120
    ∧ octaveCorrect (npMedian (temposOf 118 120 160)) = 120
    ∧ npMedian (temposOf 118 120 160) ≠ listMean [118, 120, 160]
    ∧ (detectCore 118 120 [160] 1 1 ("x.wav")).bpm = 120 := by
  have hc : temposOf 118 120 160 = [118, 120, 160] := by decide
  have hm : npMedian (temposOf 118 120 160) = 120 := by
    rw [hc]
    have hs : sortedOf [(118 : ℚ), 120, 160] = [118, 120, 160] := by decide
    simp [npMedian, hs]
  refine ⟨?_, ?_, hm, ?_, ?_, ?_⟩
  · intro h
    unfold temposOf
    rw [if_neg h]
  · intro h
    unfold temposOf
    rw [if_pos h, npMedian_singleton]
  · rw [hm]
    norm_num [octaveCorrect]
  · rw [hm]
    norm_num [listMean]
  · simp only [detectCore]
    norm_num [method3, temposOf, bandFilter, npMedian, sortedOf, List.insertionSort,
      List.orderedInsert, octaveCorrect, round2, roundHalfEven]

theorem C3_witness :
    npMedian (temposOf 118 120 160) = npMedian (bandFilter [118, 120, 160])
    ∧ npMedian (temposOf 20 21 22) = 20 :=
  ⟨(C3_median_reconciliation 118 120 160).1 (by decide),
   (C3_median_reconciliation 20 21 22).2.1 (by decide)⟩

/-- Claim C4 (amended): with at least 2 qualifying candidates the reconciler's
confidence equals clamp(1 - variance/400, 0, 1) exactly and the returned
confidence is that value rounded to 2 decimal places; with fewer than 2
qualifying candidates (one in-band candidate, or the no-qualifier fallback to
Strategy A) the returned confidence is exactly 0.7. -/
theorem C4_confidence_amended (t1 t2 : ℚ) (dist : List ℚ) (n sr : ℕ)
    (fn : String) :
    (2 ≤ (temposOf t1 t2 (method3 dist t1).1).length →
        confidenceOf (temposOf t1 t2 (method3 dist t1).1)
          = max 0 (min 1 (1 - popVariance (temposOf t1 t2 (method3 dist t1).1) / 400))
        ∧ (detectCore t1 t2 dist n sr fn).confidence
          = round2 (max 0 (min 1 (1 - popVariance (temposOf t1 t2 (method3 dist t1).1) / 400))))
    ∧ ((temposOf t1 t2 (method3 dist t1).1).length < 2 →
        confidenceOf (temposOf t1 t2 (method3 dist t1).1) = 7/10
        ∧ (detectCore t1 t2 dist n sr fn).confidence = 7/10) := by
  have hrc : (detectCore t1 t2 dist n sr fn).confidence
      = round2 (confidenceOf (temposOf t1 t2 (method3 dist t1).1)) := rfl
  constructor
  · intro h
    have hc : confidenceOf (temposOf t1 t2 (method3 dist t1).1)
        = max 0 (min 1 (1 - popVariance (temposOf t1 t2 (method3 dist t1).1) / 400)) := by
      unfold confidenceOf
      rw [if_pos h]
    exact ⟨hc, by rw [hrc, hc]⟩
  · intro h
    have hc : confidenceOf (temposOf t1 t2 (method3 dist t1).1) = 7/10 := by
      unfold confidenceOf
      rw [if_neg (by omega)]
    refine ⟨hc, ?_⟩
    rw [hrc, hc]
    norm_num [round2, roundHalfEven]

theorem C4_witness :
    confidenceOf (temposOf 100 120 (method3 [140] 100).1)
      = max 0 (min 1 (1 - popVariance (temposOf 100 120 (method3 [140] 100).1) / 400))
    ∧ (detectCore 20 20 [] 1 1 ("x.wav")).confidence = 7/10 :=
  ⟨((C4_confidence_amended 100 120 [140] 1 1 ("x.wav")).1 (by decide)).1,
   ((C4_confidence_amended 20 20 [] 1 1 ("x.wav")).2 (by decide)).2⟩

/-- Claim C4 counterexample: with qualifying candidates {60, 61, 60} the
variance is 2/9, the clamp value is 1799/1800, yet the returned confidence is
its 2-decimal rounding 1.0, so the returned confidence does not equal the
clamp expression exactly. -/
theorem C4_counterexample :
    (detectCore 60 61 [] 1 1 ("x.wav")).confidence
      ≠ max 0 (min 1 (1 - popVariance (temposOf 60 61 (method3 [] 60).1) / 400)) := by
  have ht : temposOf 60 61 (method3 [] 60).1 = [60, 61, 60] := by decide
  have hv : popVariance [(60 : ℚ), 61, 60] = 2/9 := by
    norm_num [popVariance, listMean]
  have hclamp : max 0 (min 1 (1 - popVariance (temposOf 60 61 (method3 [] 60).1) / 400))
      = 1799/1800 := by
    rw [ht, hv, show (1 : ℚ) - (2/9)/400 = 1799/1800 by norm_num,
      min_eq_right (by norm_num : (1799 : ℚ)/1800 ≤ 1),
      max_eq_right (by norm_num : (0 : ℚ) ≤ 1799/1800)]
  have hrc : (detectCore 60 61 [] 1 1 ("x.wav")).confidence
      = round2 (confidenceOf (temposOf 60 61 (method3 [] 60).1)) := rfl
  have hcf : confidenceOf (temposOf 60 61 (method3 [] 60).1) = 1799/1800 := by
    unfold confidenceOf
    rw [if_pos (by rw [ht]; norm_num)]
    exact hclamp
  rw [hrc, hcf, hclamp, show round2 (1799/1800) = 1 from by norm_num [round2, roundHalfEven]]
  norm_num

/-- Claim C5: Strategy C filters its tempo distribution to [60, 200] before
aggregation; when values survive, its candidate is their median (necessarily
in band) and its dispersion is the standard deviation of the surviving values
(carried here as the variance, its square; np.std is only logged); when
nothing survives, the candidate is the Strategy A value and the dispersion is
exactly 0. -/
theorem C5_strategyC (dist : List ℚ) (t1 : ℚ) :
    (bandFilter dist ≠ [] →
        (method3 dist t1).1 = npMedian (bandFilter dist)
        ∧ (method3 dist t1).2 = popVariance (bandFilter dist)
        ∧ (∀ x ∈ bandFilter dist, 60 ≤ x ∧ x ≤ 200)
        ∧ 60 ≤ (method3 dist t1).1 ∧ (method3 dist t1).1 ≤ 200)
    ∧ (bandFilter dist = [] → (method3 dist t1).1 = t1 ∧ (method3 dist t1).2 = 0) := by
  constructor
  · intro h
    have hpos : 0 < (bandFilter dist).length := List.length_pos.mpr h
    have h1 : (method3 dist t1).1 = npMedian (bandFilter dist) := by
      unfold method3
      rw [if_pos hpos]
    have h2 : (method3 dist t1).2 = popVariance (bandFilter dist) := by
      unfold method3
      rw [if_pos hpos]
    have hband : ∀ x ∈ bandFilter dist, 60 ≤ x ∧ x ≤ 200 := fun x hx => mem_bandFilter hx
    obtain ⟨hm1, hm2⟩ := npMedian_mem_Icc 60 200 _ h hband
    rw [h1]
    exact ⟨rfl, h2, hband, hm1, hm2⟩
  · intro h
    have hneg : ¬ 0 < (bandFilter dist).length := by
      rw [h]
      simp
    constructor
    · unfold method3
      rw [if_neg hneg]
    · unfold method3
      rw [if_neg hneg]

theorem C5_witness :
    (method3 [100, 100] 7).1 = npMedian (bandFilter [100, 100])
    ∧ (method3 [300] 7).1 = 7 :=
  ⟨((C5_strategyC [100, 100] 7).1 (by decide)).1,
   ((C5_strategyC [300] 7).2 (by decide)).1⟩

/-- Claim C6: for candidate sets with at least 2 qualifying candidates the
pre-rounding confidence is monotonically non-increasing in the variance of
the set; {120, 120, 120} gives confidence exactly 1 and {100, 120, 140}
(variance 800/3, about 266.7) gives confidence exactly 1/3, about 0.33. -/
theorem C6_confidence_monotone (l1 l2 : List ℚ)
    (h1 : 2 ≤ l1.length) (h2 : 2 ≤ l2.length)
    (hv : popVariance l1 ≤ popVariance l2) :
    confidenceOf l2 ≤ confidenceOf l1
    ∧ confidenceOf [120, 120, 120] = 1
    ∧ popVariance [100, 120, 140] = 800/3
    ∧ confidenceOf [100, 120, 140] = 1/3 := by
  have hv0 : popVariance [(120 : ℚ), 120, 120] = 0 := by
    norm_num [popVariance, listMean]
  have hv3 : popVariance [(100 : ℚ), 120, 140] = 800/3 := by
    norm_num [popVariance, listMean]
  have hc1 : confidenceOf [(120 : ℚ), 120, 120] = 1 := by
    unfold confidenceOf
    rw [if_pos (by norm_num), hv0, show (1 : ℚ) - 0/400 = 1 by norm_num, min_self,
      max_eq_right (by norm_num : (0 : ℚ) ≤ 1)]
  have hc3 : confidenceOf [(100 : ℚ), 120, 140] = 1/3 := by
    unfold confidenceOf
    rw [if_pos (by norm_num), hv3, show (1 : ℚ) - (800/3)/400 = 1/3 by norm_num,
      min_eq_right (by norm_num : (1 : ℚ)/3 ≤ 1),
      max_eq_right (by norm_num : (0 : ℚ) ≤ 1/3)]
  refine ⟨?_, hc1, hv3, hc3⟩
  unfold confidenceOf
  rw [if_pos h1, if_pos h2]
  exact max_le_max (le_refl 0) (min_le_min (le_refl 1) (by linarith))

theorem C6_witness : confidenceOf [100, 120, 140] ≤ confidenceOf [120, 120, 120] :=
  (C6_confidence_monotone [120, 120, 120] [100, 120, 140] (by norm_num) (by norm_num)
    (by norm_num [popVariance, listMean])).1

/-- Claim C7: an empty decoded waveform is rejected with the client error of
main.py line 94 before any estimation runs, and a silent (all-zero) waveform
makes the spec-modelled estimation stage fail, which detect_bpm surfaces as a
server error; in neither case is a TempoEstimate with a bpm value returned. -/
theorem C7_silent_or_empty_fails (f : UploadFile)
    (load : List ℕ → Except String (List ℚ × ℕ))
    (est : List ℚ → ℕ → ℚ × ℚ × List ℚ) (y : List ℚ) (sr : ℕ)
    (hext : fileExt f.filename ∈ allowedExtensions)
    (hsz : f.contents.length ≠ 0)
    (hload : load f.contents = Except.ok (y, sr))
    (hzero : ∀ x ∈ y, x = 0) :
    (y = [] →
      detect_bpm (some f) load (specStrategies est)
        = Response.clientError ("Audio file appears to be empty or corrupted"))
    ∧ (y ≠ [] →
      detect_bpm (some f) load (specStrategies est)
        = Response.serverError
            ("Error processing audio file: degenerate onset envelope: no onsets detected")) := by
  constructor
  · intro hy
    subst hy
    unfold detect_bpm
    dsimp only
    rw [if_neg (fun hn => hn hext), if_neg hsz, hload]
    rfl
  · intro hy
    unfold detect_bpm
    dsimp only
    rw [if_neg (fun hn => hn hext), if_neg hsz, hload]
    dsimp only
    rw [if_neg (fun h0 => hy (List.length_eq_zero.mp h0))]
    unfold specStrategies
    rw [if_pos hzero]
    rfl

theorem C7_witness :
    detect_bpm (some (UploadFile.mk ("a.wav") [1]))
        (fun _ => Except.ok ([0, 0], 44100))
        (specStrategies fun _ _ => (0, 0, []))
      = Response.serverError
          ("Error processing audio file: degenerate onset envelope: no onsets detected") :=
  (C7_silent_or_empty_fails (UploadFile.mk ("a.wav") [1])
      (fun _ => Except.ok ([0, 0], 44100)) (fun _ _ => (0, 0, [])) [0, 0] 44100
      (by decide) (by decide) rfl (by decide)).2 (by decide)

/-- Claim C8: the input-validation failures (no file, unsupported extension,
zero-byte upload) are reported as client errors with an outcome independent of
the decode and estimation collaborators, the empty/corrupted-decode check of
main.py lines 93-94 is a client error independent of the estimation stage,
every failure raised during decoding or estimation surfaces as a single
server error carrying the underlying cause, and a response never carries a
result alongside a failure. -/
theorem C8_error_taxonomy :
    (∀ load strategies, detect_bpm none load strategies
        = Response.clientError ("No file uploaded"))
    ∧ (∀ (f : UploadFile) load strategies, fileExt f.filename ∉ allowedExtensions →
        detect_bpm (some f) load strategies
          = Response.clientError ("Unsupported file format"))
    ∧ (∀ (f : UploadFile) load strategies, fileExt f.filename ∈ allowedExtensions →
        f.contents.length = 0 →
        detect_bpm (some f) load strategies
          = Response.clientError ("Uploaded file is empty"))
    ∧ (∀ (f : UploadFile) load strategies (sr : ℕ),
        fileExt f.filename ∈ allowedExtensions → f.contents.length ≠ 0 →
        load f.contents = Except.ok ([], sr) →
        detect_bpm (some f) load strategies
          = Response.clientError ("Audio file appears to be empty or corrupted"))
    ∧ (∀ (f : UploadFile) load strategies (e : String),
        fileExt f.filename ∈ allowedExtensions → f.contents.length ≠ 0 →
        load f.contents = Except.error e →
        detect_bpm (some f) load strategies
          = Response.serverError ("Error processing audio file: " ++ e))
    ∧ (∀ (f : UploadFile) load strategies (y : List ℚ) (sr : ℕ) (e : String),
        fileExt f.filename ∈ allowedExtensions → f.contents.length ≠ 0 →
        load f.contents = Except.ok (y, sr) → y.length ≠ 0 →
        strategies y sr = Except.error e →
        detect_bpm (some f) load strategies
          = Response.serverError ("Error processing audio file: " ++ e))
    ∧ (∀ file load strategies (r : DetectResult) (d : String),
        detect_bpm file load strategies = Response.ok r →
        detect_bpm file load strategies ≠ Response.clientError d
        ∧ detect_bpm file load strategies ≠ Response.serverError d) := by
  refine ⟨fun load strategies => rfl, ?_, ?_, ?_, ?_, ?_, ?_⟩
  · intro f load strategies hext
    unfold detect_bpm
    dsimp only
    rw [if_pos hext]
  · intro f load strategies hext hsz
    unfold detect_bpm
    dsimp only
    rw [if_neg (fun hn => hn hext), if_pos hsz]
  · intro f load strategies sr hext hsz hload
    unfold detect_bpm
    dsimp only
    rw [if_neg (fun hn => hn hext), if_neg hsz, hload]
    rfl
  · intro f load strategies e hext hsz hload
    unfold detect_bpm
    dsimp only
    rw [if_neg (fun hn => hn hext), if_neg hsz, hload]
  · intro f load strategies y sr e hext hsz hload hy hstrat
    unfold detect_bpm
    dsimp only
    rw [if_neg (fun hn => hn hext), if_neg hsz, hload]
    dsimp only
    rw [if_neg hy, hstrat]
  · intro file load strategies r d hok
    rw [hok]
    exact ⟨fun hc => Response.noConfusion hc, fun hs => Response.noConfusion hs⟩

theorem C8_witness :
    detect_bpm (some (UploadFile.mk ("a.txt") [1]))
        (fun _ => Except.error ("x")) (fun _ _ => Except.error ("x"))
      = Response.clientError ("Unsupported file format")
    ∧ detect_bpm (some (UploadFile.mk ("a.wav") [1]))
        (fun _ => Except.ok ([], 44100)) (fun _ _ => Except.error ("x"))
      = Response.clientError ("Audio file appears to be empty or corrupted")
    ∧ detect_bpm (some (UploadFile.mk ("a.wav") [1]))
        (fun _ => Except.error ("boom")) (fun _ _ => Except.error ("x"))
      = Response.serverError ("Error processing audio file: " ++ "boom") :=
  ⟨C8_error_taxonomy.2.1 (UploadFile.mk ("a.txt") [1])
      (fun _ => Except.error ("x")) (fun _ _ => Except.error ("x")) (by decide),
   C8_error_taxonomy.2.2.2.1 (UploadFile.mk ("a.wav") [1])
      (fun _ => Except.ok ([], 44100)) (fun _ _ => Except.error ("x")) 44100
      (by decide) (by decide) rfl,
   C8_error_taxonomy.2.2.2.2.1 (UploadFile.mk ("a.wav") [1])
      (fun _ => Except.error ("boom")) (fun _ _ => Except.error ("x")) ("boom")
      (by decide) (by decide) rfl⟩

/-- Claim C9: the returned bpm and confidence are the 2-decimal roundings of
the corrected median and of the reconciler's confidence, rounding to 2
decimal places is idempotent on every rational, and in particular re-rounding
either returned field changes nothing. -/
theorem C9_two_decimal_rounding (t1 t2 : ℚ) (dist : List ℚ) (n sr : ℕ)
    (fn : String) :
    (detectCore t1 t2 dist n sr fn).bpm
      = round2 (octaveCorrect (npMedian (temposOf t1 t2 (method3 dist t1).1)))
    ∧ (detectCore t1 t2 dist n sr fn).confidence
      = round2 (confidenceOf (temposOf t1 t2 (method3 dist t1).1))
    ∧ (∀ x : ℚ, round2 (round2 x) = round2 x)
    ∧ round2 ((detectCore t1 t2 dist n sr fn).bpm) = (detectCore t1 t2 dist n sr fn).bpm
    ∧ round2 ((detectCore t1 t2 dist n sr fn).confidence)
      = (detectCore t1 t2 dist n sr fn).confidence :=
  ⟨rfl, rfl, round2_idempotent,
   round2_idempotent (octaveCorrect (npMedian (temposOf t1 t2 (method3 dist t1).1))),
   round2_idempotent (confidenceOf (temposOf t1 t2 (method3 dist t1).1))⟩

/-- Claim C10: the observability fields method1_bpm, method2_bpm, method3_bpm
are the raw per-strategy candidates rounded to 2 decimal places, independent
of the reconciler's band filtering and octave correction; concretely, with a
Strategy A candidate of 250 the field method1_bpm is 250, outside [60, 200],
while the returned bpm 125 lies inside the band. -/
theorem C10_method_fields (t1 t2 : ℚ) (dist : List ℚ) (n sr : ℕ) (fn : String) :
    (detectCore t1 t2 dist n sr fn).method1_bpm = round2 t1
    ∧ (detectCore t1 t2 dist n sr fn).method2_bpm = round2 t2
    ∧ (detectCore t1 t2 dist n sr fn).method3_bpm = round2 ((method3 dist t1).1)
    ∧ (detectCore 250 120 [130] 1 1 ("x.wav")).method1_bpm = 250
    ∧ ¬ (60 ≤ (detectCore 250 120 [130] 1 1 ("x.wav")).method1_bpm
          ∧ (detectCore 250 120 [130] 1 1 ("x.wav")).method1_bpm ≤ 200)
    ∧ 60 ≤ (detectCore 250 120 [130] 1 1 ("x.wav")).bpm
    ∧ (detectCore 250 120 [130] 1 1 ("x.wav")).bpm ≤ 200 := by
  have h1 : (detectCore 250 120 [130] 1 1 ("x.wav")).method1_bpm = 250 := by
    simp only [detectCore]
    norm_num [round2, roundHalfEven]
  have hb : (detectCore 250 120 [130] 1 1 ("x.wav")).bpm = 125 := by
    simp only [detectCore]
    norm_num [method3, temposOf, bandFilter, npMedian, sortedOf, List.insertionSort,
      List.orderedInsert, octaveCorrect, round2, roundHalfEven]
  refine ⟨rfl, rfl, rfl, h1, ?_, ?_, ?_⟩
  · rw [h1]
    norm_num
  · rw [hb]
    norm_num
  · rw [hb]
    norm_num
